import Mathlib

/-!
Verification of the T.LY URL-shortener Go client (`client.go`) against its
natural-language specification.  The Go code is shallowly embedded below:
JSON documents are the inductive `Json`, the Go `json.Marshal` output is
`renderJson`, `url.Values` is an association list with the Go `Set`/`Encode`
semantics (sorted keys, percent-encoded), and the HTTP transport
(`http.Client.Do` plus reading the response body) is a function parameter
`Transport`.  Machine integers are modelled as `Int`/`Nat`; none of the
embedded code can overflow them.
-/

namespace Tly

/-- A JSON document.  Numbers are restricted to integers, which covers every
numeric value appearing in the requests of the client and in the claims. -/
inductive Json where
  | null
  | jbool (b : Bool)
  | num (n : Int)
  | str (s : String)
  | arr (elems : List Json)
  | obj (fields : List (String × Json))

/-- Lowercase hex digit, as used by the Go JSON encoder for `\u00XX` escapes. -/
def hexDigitLower (n : Nat) : Char :=
  if n < 10 then Char.ofNat (48 + n) else Char.ofNat (87 + n)

/-- Escaping of one character inside a JSON string, following the Go
`encoding/json` encoder with its default HTML escaping (`<`, `>`, `&`
become `<`, `>`, `&`; control characters other than
`\n`, `\r`, `\t` become `\u00XX` with lowercase hex). -/
def jsonEscapeChar (c : Char) : String :=
  if c = '"' then "\\\""
  else if c = '\\' then "\\\\"
  else if c = '\n' then "\\n"
  else if c = '\r' then "\\r"
  else if c = '\t' then "\\t"
  else if c.toNat < 0x20 then
    "\\u00" ++ String.mk [hexDigitLower (c.toNat / 16), hexDigitLower (c.toNat % 16)]
  else if c = '<' then "\\u003c"
  else if c = '>' then "\\u003e"
  else if c = '&' then "\\u0026"
  else if c.toNat = 0x2028 then "\\u2028"
  else if c.toNat = 0x2029 then "\\u2029"
  else String.singleton c

/-- Go `encoding/json` rendering of a string literal. -/
def renderJsonString (s : String) : String :=
  "\"" ++ String.join (s.toList.map jsonEscapeChar) ++ "\""

mutual

/-- Go `json.Marshal` output for a `Json` document.  Struct-backed objects
are rendered in field-declaration order, exactly as the embedding builds
their field lists. -/
def renderJson : Json → String
  | .null => "null"
  | .jbool true => "true"
  | .jbool false => "false"
  | .num n => n.repr
  | .str s => renderJsonString s
  | .arr xs => "[" ++ renderJsonArr xs ++ "]"
  | .obj fs => "\x7b" ++ renderJsonObj fs ++ "\x7d"

/-- Comma-separated rendering of JSON array elements. -/
def renderJsonArr : List Json → String
  | [] => ""
  | [x] => renderJson x
  | x :: y :: rest => renderJson x ++ "," ++ renderJsonArr (y :: rest)

/-- Comma-separated rendering of JSON object members. -/
def renderJsonObj : List (String × Json) → String
  | [] => ""
  | [(k, v)] => renderJsonString k ++ ":" ++ renderJson v
  | (k, v) :: y :: rest => renderJsonString k ++ ":" ++ renderJson v ++ "," ++ renderJsonObj (y :: rest)

end

/-- The UTF-8 bytes of a character, as the Go conversion `[]byte(string)` produces them. -/
def utf8Bytes (c : Char) : List Nat :=
  let n := c.toNat
  if n < 0x80 then [n]
  else if n < 0x800 then [0xC0 + n / 64, 0x80 + n % 64]
  else if n < 0x10000 then [0xE0 + n / 4096, 0x80 + (n / 64) % 64, 0x80 + n % 64]
  else [0xF0 + n / 262144, 0x80 + (n / 4096) % 64, 0x80 + (n / 64) % 64, 0x80 + n % 64]

/-- Uppercase hex digit, as used by the Go `net/url` percent-encoding. -/
def hexDigitUpper (n : Nat) : Char :=
  if n < 10 then Char.ofNat (48 + n) else Char.ofNat (55 + n)

/-- Go `url.QueryEscape` treatment of one byte: alphanumerics and `-_.~`
pass through, space becomes `+`, every other byte becomes `%XX`. -/
def escapeQueryByte (b : Nat) : String :=
  if (0x41 ≤ b && b ≤ 0x5A) || (0x61 ≤ b && b ≤ 0x7A) || (0x30 ≤ b && b ≤ 0x39)
      || b == 0x2D || b == 0x5F || b == 0x2E || b == 0x7E then
    String.singleton (Char.ofNat b)
  else if b == 0x20 then "+"
  else String.mk ['%', hexDigitUpper (b / 16), hexDigitUpper (b % 16)]

/-- Go `url.QueryEscape` over the UTF-8 bytes of a string. -/
def queryEscape (s : String) : String :=
  String.join (s.toList.map (fun c => String.join ((utf8Bytes c).map escapeQueryByte)))

/-- Go `url.Values`: a finite map from keys to value lists.  The embedding
keeps it as an association list with unique keys; the missing order of the map is
irrelevant because `Encode` sorts keys. -/
abbrev Values := List (String × List String)

/-- The empty `url.Values`. -/
def Values.empty : Values := []

/-- Whether a key is present, mirroring Go map lookup. -/
def Values.hasKey (q : Values) (k : String) : Bool :=
  q.any (fun p => p.1 == k)

/-- Go `url.Values.Set`: replace any existing entry for the key by the
single given value. -/
def Values.set (q : Values) (k v : String) : Values :=
  if q.hasKey k then q.map (fun p => if p.1 == k then (k, [v]) else p)
  else q ++ [(k, [v])]

/-- Byte-order comparison of two character lists, modelling the Go `string`
ordering (UTF-8 byte order coincides with codepoint order). -/
def charListLe : List Char → List Char → Bool
  | [], _ => true
  | _ :: _, [] => false
  | a :: as, b :: bs =>
    if a.toNat < b.toNat then true
    else if b.toNat < a.toNat then false
    else charListLe as bs

/-- Go string `<=`, used by `sort.Strings` inside `url.Values.Encode`. -/
def strLe (a b : String) : Bool := charListLe a.toList b.toList

/-- Insert one entry into a key-sorted list of entries. -/
def insertSortedByKey (x : String × List String) : Values → Values
  | [] => [x]
  | y :: ys => if strLe x.1 y.1 then x :: y :: ys else y :: insertSortedByKey x ys

/-- Sort entries by key, modelling `sort.Strings` over the map keys
(keys are unique, so any comparison sort yields the same list). -/
def sortValuesByKey : Values → Values
  | [] => []
  | x :: xs => insertSortedByKey x (sortValuesByKey xs)

/-- Join strings with `&`, as `Encode` writes its components. -/
def joinAmp : List String → String
  | [] => ""
  | [x] => x
  | x :: y :: rest => x ++ "&" ++ joinAmp (y :: rest)

/-- Go `url.Values.Encode`: keys sorted, each `key=value` component with key
and value percent-encoded by `QueryEscape`, components joined by `&`. -/
def Values.encode (q : Values) : String :=
  joinAmp (List.flatten ((sortValuesByKey q).map
    (fun p => p.2.map (fun v => queryEscape p.1 ++ "=" ++ queryEscape v))))

/-- The `Client` struct (`client.go` lines 15-19).  The `*http.Client`
transport handle is modelled as the `Transport` function passed to each
call, keeping the embedding pure. -/
structure Client where
  apiKey : String
  baseURL : String

/-- Model of `NewClient` (`client.go` lines 32-38). -/
def newClient (apiKey : String) : Client :=
  { apiKey := apiKey, baseURL := "https://api.t.ly" }

/-- The HTTP request assembled by `doRequestRaw` before handing it to the
transport. -/
structure HttpRequest where
  method : String
  url : String
  headers : List (String × String)
  body : String

/-- An HTTP response as observed after `ioutil.ReadAll`: status code plus
the fully read body. -/
structure HttpResponse where
  statusCode : Nat
  body : String

/-- The transport: `http.Client.Do` plus reading the body.  A `.error`
models a network/read failure (connection refused, timeout, read error). -/
abbrev Transport := HttpRequest → Except String HttpResponse

/-- The error outcomes of the client: request-body marshalling failure,
transport failure, non-2xx `APIError` (status + verbatim body), and JSON
decode failure. -/
inductive ReqError where
  | marshalError (msg : String)
  | transportError (msg : String)
  | apiError (statusCode : Nat) (body : String)
  | decodeError (msg : String)

/-- A request body value (`body interface{}` in Go): either a value whose
`json.Marshal` succeeds, producing the rendered document, or a value on
which `json.Marshal` fails (functions, channels, unsupported floats). -/
inductive BodyValue where
  | json (j : Json)
  | unserializable (msg : String)

/-- Model of `json.Marshal` on a body value. -/
def marshalBodyValue : BodyValue → Except String String
  | .json j => .ok (renderJson j)
  | .unserializable msg => .error msg

/-- Marshalling of the optional request body: a `nil` body is an empty
buffer (`client.go` lines 46-55). -/
def marshalOptBody : Option BodyValue → Except String String
  | none => .ok ""
  | some b => marshalBodyValue b

/-- Model of `strings.TrimRight(s, "/")` as used on the base URL (`client.go`
line 41). -/
def trimRightSlashes (s : String) : String :=
  String.mk ((s.toList.reverse.dropWhile (fun c => c == '/')).reverse)

/-- URL construction of `doRequestRaw` (`client.go` lines 41-44): trimmed
base plus path, with `?` and the encoded query appended only when the query
is non-nil and non-empty. -/
def buildURL (c : Client) (path : String) (query : Option Values) : String :=
  let requestURL := trimRightSlashes c.baseURL ++ path
  match query with
  | some q => if 0 < q.length then requestURL ++ "?" ++ Values.encode q else requestURL
  | none => requestURL

/-- The headers attached by `doRequestRaw` (`client.go` lines 61-63). -/
def stdHeaders (apiKey : String) : List (String × String) :=
  [("Authorization", "Bearer " ++ apiKey),
   ("Content-Type", "application/json"),
   ("Accept", "application/json")]

/-- The request assembled by `doRequestRaw` (`client.go` lines 40-63). -/
def buildRequest (c : Client) (method path : String) (query : Option Values)
    (bodyStr : String) : HttpRequest :=
  { method := method, url := buildURL c path query,
    headers := stdHeaders c.apiKey, body := bodyStr }

/-- Status classification of `doRequestRaw` (`client.go` lines 75-81):
2xx returns the raw body, anything else is an `APIError` carrying the
status code and the body verbatim. -/
def classifyResponse (resp : HttpResponse) : Except ReqError String :=
  if resp.statusCode < 200 ∨ 300 ≤ resp.statusCode then
    .error (.apiError resp.statusCode resp.body)
  else .ok resp.body

/-- The transport-and-classification tail of `doRequestRaw` (`client.go`
lines 65-81). -/
def finishRaw (r : Except String HttpResponse) : Except ReqError String :=
  match r with
  | .error e => .error (.transportError e)
  | .ok resp => classifyResponse resp

/-- Model of `doRequestRaw` (`client.go` lines 40-82): marshal the body (failing
immediately on a marshalling error), build the request, run the transport,
classify the response. -/
def doRequestRaw (c : Client) (t : Transport) (method path : String)
    (query : Option Values) (body : Option BodyValue) : Except ReqError String :=
  match marshalOptBody body with
  | .error e => .error (.marshalError e)
  | .ok bodyStr => finishRaw (t (buildRequest c method path query bodyStr))

/-- Go `bytes.TrimSpace` restricted to the ASCII whitespace characters
(space, `\t`, `\n`, `\v`, `\f`, `\r`); the client only meets ASCII bodies
in the whitespace test. -/
def isGoSpace (c : Char) : Bool :=
  c == ' ' || c == '\t' || c == '\n' || c == '\x0b' || c == '\x0c' || c == '\r'

/-- Model of `bytes.TrimSpace` on the response body (`client.go` line 91). -/
def goTrimSpace (s : String) : String :=
  String.mk (((s.toList.dropWhile isGoSpace).reverse.dropWhile isGoSpace).reverse)

/-- The `result interface{}` argument of `doRequest`: `nil`, a `*[]byte`
raw-bytes target, or a typed target carrying its zero value and the
`json.Unmarshal` behaviour for its shape. -/
inductive Target : Type → Type 1 where
  | noResult : Target Unit
  | rawBytes : Target String
  | typed {α : Type} (zero : α) (unmarshal : String → Except String α) : Target α

/-- The decode stage of `doRequest` (`client.go` lines 91-99): early return
for a `nil` target or an empty/whitespace-only body, raw copy for a
`*[]byte` target, JSON decoding otherwise. -/
def decodeStage {α : Type} (target : Target α) (r : Except ReqError String) :
    Except ReqError α :=
  match r with
  | .error e => .error e
  | .ok data =>
    match target with
    | .noResult => .ok ()
    | .rawBytes => if goTrimSpace data = "" then .ok "" else .ok data
    | .typed zero unmarshal =>
      if goTrimSpace data = "" then .ok zero
      else
        match unmarshal data with
        | .ok v => .ok v
        | .error e => .error (.decodeError e)

/-- Model of `doRequest` (`client.go` lines 85-100). -/
def doRequest {α : Type} (c : Client) (t : Transport) (method path : String)
    (query : Option Values) (body : Option BodyValue) (target : Target α) :
    Except ReqError α :=
  decodeStage target (doRequestRaw c t method path query body)

/-- The key `fmt.Sprintf("%s[%d]", key, i)` of `addIndexedIntSlice`. -/
def genIndexKey (key : String) (i : Nat) : String :=
  key ++ "[" ++ Nat.repr i ++ "]"

/-- Index-threading loop of `addIndexedIntSlice` (`client.go`
lines 110-114). -/
def addIndexedIntSliceAux (key : String) (i : Nat) (q : Values) :
    List Int → Values
  | [] => q
  | v :: rest =>
    addIndexedIntSliceAux key (i + 1) (q.set (genIndexKey key i) (Int.repr v)) rest

/-- Model of `addIndexedIntSlice` (`client.go` lines 110-114): `query.Set` of
`key[i] = strconv.Itoa(v)` for each value in input order. -/
def addIndexedIntSlice (q : Values) (key : String) (values : List Int) : Values :=
  addIndexedIntSliceAux key 0 q values

/-- Model of `ShortLinkCreateRequest` (`client.go` lines 217-229).  Pointer-typed
optional fields are `Option`; slice fields are lists (`nil` and empty both
serialize as absent under `omitempty`); `Meta interface{}` is an optional
JSON document. -/
structure ShortLinkCreateRequest where
  longURL : String
  shortID : Option String
  domain : String
  expireAtDatetime : Option String
  expireAtViews : Option Int
  description : Option String
  publicStats : Option Bool
  password : Option String
  tags : List Int
  pixels : List Int
  meta : Option Json

/-- Serialization of an `omitempty` string-pointer field: absent when
unset. -/
def optStrField (k : String) : Option String → List (String × Json)
  | none => []
  | some s => [(k, .str s)]

/-- Serialization of an `omitempty` int-pointer field. -/
def optIntField (k : String) : Option Int → List (String × Json)
  | none => []
  | some n => [(k, .num n)]

/-- Serialization of an `omitempty` bool-pointer field. -/
def optBoolField (k : String) : Option Bool → List (String × Json)
  | none => []
  | some b => [(k, .jbool b)]

/-- Serialization of an `omitempty` interface field. -/
def optJsonField (k : String) : Option Json → List (String × Json)
  | none => []
  | some j => [(k, j)]

/-- Serialization of an `omitempty` int-slice field: omitted when empty. -/
def intListField (k : String) : List Int → List (String × Json)
  | [] => []
  | v :: rest => [(k, .arr ((v :: rest).map Json.num))]

/-- Model of `json.Marshal` of a `ShortLinkCreateRequest`: fields in declaration
order, `omitempty` fields dropped when unset. -/
def marshalShortLinkCreateRequest (r : ShortLinkCreateRequest) : Json :=
  .obj ([("long_url", .str r.longURL)]
    ++ optStrField "short_id" r.shortID
    ++ [("domain", .str r.domain)]
    ++ optStrField "expire_at_datetime" r.expireAtDatetime
    ++ optIntField "expire_at_views" r.expireAtViews
    ++ optStrField "description" r.description
    ++ optBoolField "public_stats" r.publicStats
    ++ optStrField "password" r.password
    ++ intListField "tags" r.tags
    ++ intListField "pixels" r.pixels
    ++ optJsonField "meta" r.meta)

/-- The keys of a serialized JSON object. -/
def jsonKeys : Json → List String
  | .obj fs => fs.map Prod.fst
  | _ => []

/-- Model of `ShortLink` (`client.go` lines 198-214); `interface{}` fields are
`Json` with `.null` as the Go zero interface. -/
structure ShortLink where
  shortURL : String
  description : Option String
  longURL : String
  domain : String
  shortID : String
  expireAtViews : Json
  expireAtDatetime : Json
  publicStats : Bool
  createdAt : String
  updatedAt : String
  meta : Json
  qrCodeURL : String
  qrCodeBase64 : String
  tags : List Json
  pixels : List Json

/-- The Go zero value `ShortLink{}` of `var link ShortLink`. -/
def shortLinkZero : ShortLink :=
  { shortURL := "", description := none, longURL := "", domain := "",
    shortID := "", expireAtViews := .null, expireAtDatetime := .null,
    publicStats := false, createdAt := "", updatedAt := "", meta := .null,
    qrCodeURL := "", qrCodeBase64 := "", tags := [], pixels := [] }

/-- Model of `CreateShortLink` (`client.go` lines 247-254).  The `json.Unmarshal`
behaviour for the `ShortLink` shape is an external JSON-library
collaborator (spec section 1) and is passed as the parameter `u`. -/
def createShortLink (c : Client) (t : Transport)
    (u : String → Except String ShortLink) (reqData : ShortLinkCreateRequest) :
    Except ReqError ShortLink :=
  doRequest c t "POST" "/api/v1/link/shorten" none
    (some (.json (marshalShortLinkCreateRequest reqData))) (.typed shortLinkZero u)

/-- Model of `DeleteShortLink` (`client.go` lines 279-284): HTTP DELETE on
`/api/v1/link` with the JSON body `\x7b"short_url": shortURL\x7d` (a
one-entry Go map, so map-key sorting is trivial) and no query. -/
def deleteShortLink (c : Client) (t : Transport) (shortURL : String) :
    Except ReqError Unit :=
  doRequest c t "DELETE" "/api/v1/link" none
    (some (.json (.obj [("short_url", .str shortURL)]))) .noResult

/-- Model of `DeletePixel` (`client.go` lines 188-191): id interpolated into the
path, `nil` body, `nil` query. -/
def deletePixel (c : Client) (t : Transport) (id : Int) : Except ReqError Unit :=
  doRequest c t "DELETE" ("/api/v1/link/pixel/" ++ Int.repr id) none none .noResult

/-- Model of `DeleteTag` (`client.go` lines 778-781). -/
def deleteTag (c : Client) (t : Transport) (id : Int) : Except ReqError Unit :=
  doRequest c t "DELETE" ("/api/v1/link/tag/" ++ Int.repr id) none none .noResult

/-- Model of `DeleteUTMPreset` (`client.go` lines 657-660). -/
def deleteUTMPreset (c : Client) (t : Transport) (id : Int) : Except ReqError Unit :=
  doRequest c t "DELETE" ("/api/v1/link/utm-preset/" ++ Int.repr id) none none .noResult

/-- Model of `QRCodeRequest` (`client.go` lines 667-671). -/
structure QRCodeRequest where
  shortURL : String
  output : String
  format : String

/-- Model of `GetQRCode` (`client.go` lines 674-684): always sets `short_url`, sets
`output`/`format` only when non-empty, and returns the raw bytes of
`doRequestRaw`. -/
def getQRCode (c : Client) (t : Transport) (reqData : QRCodeRequest) :
    Except ReqError String :=
  let query := Values.set Values.empty "short_url" reqData.shortURL
  let query := if reqData.output ≠ "" then query.set "output" reqData.output else query
  let query := if reqData.format ≠ "" then query.set "format" reqData.format else query
  doRequestRaw c t "GET" "/api/v1/link/qr-code" (some query) none

/-- Model of `Stats` (`client.go` lines 425-437); loosely typed breakdown entries
are `Json` documents. -/
structure Stats where
  clicks : Int
  uniqueClicks : Int
  totalQRScans : Int
  browsers : List Json
  countries : List Json
  cities : List Json
  referrers : List Json
  platforms : List Json
  dailyClicks : List Json
  linkClicks : List Json
  data : List (String × Json)

/-- The Go zero value `Stats{}` of `var stats Stats`. -/
def statsZero : Stats :=
  { clicks := 0, uniqueClicks := 0, totalQRScans := 0, browsers := [],
    countries := [], cities := [], referrers := [], platforms := [],
    dailyClicks := [], linkClicks := [], data := [] }

/-- Model of `StatsRequest` (`client.go` lines 440-444). -/
structure StatsRequest where
  shortURL : String
  startDate : String
  endDate : String

/-- Model of `GetStatsWithRange` (`client.go` lines 454-470).  The `json.Unmarshal`
behaviour for the `Stats` shape is an external JSON-library collaborator
and is passed as the parameter `u`. -/
def getStatsWithRange (c : Client) (t : Transport)
    (u : String → Except String Stats) (reqData : StatsRequest) :
    Except ReqError Stats :=
  let query := Values.set Values.empty "short_url" reqData.shortURL
  let query := if reqData.startDate ≠ "" then query.set "start_date" reqData.startDate else query
  let query := if reqData.endDate ≠ "" then query.set "end_date" reqData.endDate else query
  doRequest c t "GET" "/api/v1/link/stats" (some query) none (.typed statsZero u)

/-- Model of `GetStats` (`client.go` lines 447-451): delegates to
`GetStatsWithRange` with only `ShortURL` set (the other struct-literal
fields are Go zero values, empty strings). -/
def getStats (c : Client) (t : Transport) (u : String → Except String Stats)
    (shortURL : String) : Except ReqError Stats :=
  getStatsWithRange c t u { shortURL := shortURL, startDate := "", endDate := "" }

/-- Model of `ListShortLinksOptions` (`client.go` lines 309-317). -/
structure ListShortLinksOptions where
  search : String
  tagIDs : List Int
  pixelIDs : List Int
  startDate : String
  endDate : String
  domains : List Int
  page : Int

/-- The query constructed by `ListShortLinksDetailed` (`client.go`
lines 330-345). -/
def listShortLinksQuery (options : ListShortLinksOptions) : Values :=
  let query := Values.empty
  let query := if options.search ≠ "" then query.set "search" options.search else query
  let query := addIndexedIntSlice query "tag_ids" options.tagIDs
  let query := addIndexedIntSlice query "pixel_ids" options.pixelIDs
  let query := if options.startDate ≠ "" then query.set "start_date" options.startDate else query
  let query := if options.endDate ≠ "" then query.set "end_date" options.endDate else query
  let query := addIndexedIntSlice query "domains" options.domains
  let query := if 0 < options.page then query.set "page" (Int.repr options.page) else query
  query

/-- Model of `UTMPreset` (`client.go` lines 569-579). -/
structure UTMPreset where
  id : Int
  name : String
  source : String
  medium : String
  campaign : String
  content : String
  term : String
  createdAt : String
  updatedAt : String
deriving DecidableEq

/-- The Go zero value `UTMPreset{}`. -/
def utmPresetZero : UTMPreset :=
  { id := 0, name := "", source := "", medium := "", campaign := "",
    content := "", term := "", createdAt := "", updatedAt := "" }

/-- Go object-member lookup during `json.Unmarshal`: for duplicate keys the
last occurrence wins.  The embedding matches keys exactly (the service payloads
use the exact lowercase tag names). -/
def jsonFieldLookup (fields : List (String × Json)) (k : String) : Option Json :=
  ((fields.filter (fun p => p.1 == k)).getLast?).map Prod.snd

/-- Go `json.Unmarshal` of one object member into an `int` struct field:
absent or `null` leaves the zero value; a number is taken; any other shape
is an unmarshalling error. -/
def getIntField (fields : List (String × Json)) (k : String) : Except String Int :=
  match jsonFieldLookup fields k with
  | none => .ok 0
  | some .null => .ok 0
  | some (.num n) => .ok n
  | some _ => .error ("json: cannot unmarshal value into int field " ++ k)

/-- Go `json.Unmarshal` of one object member into a `string` struct
field. -/
def getStrField (fields : List (String × Json)) (k : String) : Except String String :=
  match jsonFieldLookup fields k with
  | none => .ok ""
  | some .null => .ok ""
  | some (.str s) => .ok s
  | some _ => .error ("json: cannot unmarshal value into string field " ++ k)

/-- Go `json.Unmarshal` into a fresh `UTMPreset`: `null` is a no-op
(leaving the zero value), an object binds the tagged members and ignores
unknown keys, and any other document is an error. -/
def unmarshalUTMPreset : Json → Except String UTMPreset
  | .null => .ok utmPresetZero
  | .obj fields => do
    let id ← getIntField fields "id"
    let name ← getStrField fields "name"
    let source ← getStrField fields "source"
    let medium ← getStrField fields "medium"
    let campaign ← getStrField fields "campaign"
    let content ← getStrField fields "content"
    let term ← getStrField fields "term"
    let createdAt ← getStrField fields "created_at"
    let updatedAt ← getStrField fields "updated_at"
    pure { id := id, name := name, source := source, medium := medium,
           campaign := campaign, content := content, term := term,
           createdAt := createdAt, updatedAt := updatedAt }
  | _ => .error "json: cannot unmarshal value into UTMPreset"

/-- Go `json.Unmarshal` into the anonymous wrapper struct
`struct \x7b Data UTMPreset `json:"data"` \x7d` (`client.go`
lines 597-599): an absent or `null` `data` member leaves the zero
`UTMPreset`; unknown keys are ignored. -/
def unmarshalWrappedUTMPreset : Json → Except String UTMPreset
  | .null => .ok utmPresetZero
  | .obj fields =>
    (match jsonFieldLookup fields "data" with
    | none => .ok utmPresetZero
    | some .null => .ok utmPresetZero
    | some j => unmarshalUTMPreset j)
  | _ => .error "json: cannot unmarshal value into wrapper"

/-- Model of `decodeUTMPreset` (`client.go` lines 591-604), on the parsed JSON
document of the response bytes: direct unmarshal first, the
`\x7b"data": ...\x7d` wrapper on failure, a decode error when both fail. -/
def decodeUTMPreset (data : Json) : Except String UTMPreset :=
  match unmarshalUTMPreset data with
  | .ok preset => .ok preset
  | .error _ =>
    match unmarshalWrappedUTMPreset data with
    | .ok wrapped => .ok wrapped
    | .error _ => .error "unable to decode UTM preset response"

/-- Go `json.Unmarshal` into `[]UTMPreset`: `null` leaves the `nil` slice,
an array unmarshals elementwise, anything else is an error. -/
def unmarshalUTMPresetList : Json → Except String (List UTMPreset)
  | .null => .ok []
  | .arr xs => xs.mapM unmarshalUTMPreset
  | _ => .error "json: cannot unmarshal value into UTMPreset slice"

/-- Go `json.Unmarshal` into the anonymous wrapper struct
`struct \x7b Data []UTMPreset `json:"data"` \x7d` (`client.go`
lines 627-629). -/
def unmarshalWrappedUTMPresetList : Json → Except String (List UTMPreset)
  | .null => .ok []
  | .obj fields =>
    (match jsonFieldLookup fields "data" with
    | none => .ok []
    | some .null => .ok []
    | some j => unmarshalUTMPresetList j)
  | _ => .error "json: cannot unmarshal value into wrapper"

/-- The decode logic of `ListUTMPresets` after the raw fetch (`client.go`
lines 622-633): direct `[]UTMPreset` unmarshal first, the wrapper on
failure, a decode error when both fail. -/
def decodeUTMPresetList (data : Json) : Except String (List UTMPreset) :=
  match unmarshalUTMPresetList data with
  | .ok presets => .ok presets
  | .error _ =>
    match unmarshalWrappedUTMPresetList data with
    | .ok wrapped => .ok wrapped
    | .error _ => .error "unable to decode UTM preset list response"

/-- Substring check used to settle claims about encoded URLs: whether
`pat` occurs contiguously in `s` (computed over the character lists). -/
def charsLead : List Char → List Char → Bool
  | [], _ => true
  | _ :: _, [] => false
  | p :: ps, c :: cs => p == c && charsLead ps cs

/-- Whether the second list occurs contiguously inside the first. -/
def charsContain : List Char → List Char → Bool
  | [], pat => pat.isEmpty
  | s :: rest, pat => charsLead pat (s :: rest) || charsContain rest pat

/-- Whether `pat` occurs as a contiguous substring of `s`. -/
def strContains (s pat : String) : Bool :=
  charsContain s.toList pat.toList

/-! ## Helper lemmas (shared) -/

/-- The map update `url.Values.Set` appends when the key is absent. -/
theorem values_set_append (q : Values) (k v : String) (h : q.hasKey k = false) :
    q.set k v = q ++ [(k, [v])] := by
  simp [Values.set, h]

/-- Key membership across an appended single entry. -/
theorem hasKey_append_single (q : Values) (k0 : String) (v0 : List String)
    (k : String) : (q ++ [(k0, v0)]).hasKey k = (q.hasKey k || (k0 == k)) := by
  simp [Values.hasKey, List.any_append]

/-- Characterization of the `addIndexedIntSlice` loop: starting from a map
free of the generated keys, with the generated keys pairwise distinct, the
loop appends exactly the indexed entries in input order. -/
theorem addIndexedIntSliceAux_eq (key : String) :
    ∀ (vs : List Int) (i : Nat) (q : Values),
      (∀ j, j < vs.length → q.hasKey (genIndexKey key (i + j)) = false) →
      (∀ a b, a < vs.length → b < vs.length → a ≠ b →
        genIndexKey key (i + a) ≠ genIndexKey key (i + b)) →
      addIndexedIntSliceAux key i q vs
        = q ++ (List.enumFrom i vs).map (fun p => (genIndexKey key p.1, [Int.repr p.2]))
  | [], i, q, _, _ => by simp [addIndexedIntSliceAux, List.enumFrom]
  | v :: rest, i, q, hq, hd => by
    have h0 : q.hasKey (genIndexKey key i) = false := by
      have := hq 0 (by simp)
      simpa using this
    have hq2 : ∀ j, j < rest.length →
        (q ++ [(genIndexKey key i, [Int.repr v])]).hasKey (genIndexKey key (i + 1 + j)) = false := by
      intro j hj
      rw [hasKey_append_single]
      have h1 : q.hasKey (genIndexKey key (i + 1 + j)) = false := by
        have := hq (j + 1) (by simpa using Nat.succ_lt_succ hj)
        have e : i + (j + 1) = i + 1 + j := by omega
        rwa [e] at this
      have hne : genIndexKey key i ≠ genIndexKey key (i + 1 + j) := by
        have := hd 0 (j + 1) (by simp) (by simpa using Nat.succ_lt_succ hj) (by omega)
        have e : i + (j + 1) = i + 1 + j := by omega
        simpa [e] using this
      simp [h1, hne]
    have hd2 : ∀ a b, a < rest.length → b < rest.length → a ≠ b →
        genIndexKey key (i + 1 + a) ≠ genIndexKey key (i + 1 + b) := by
      intro a b ha hb hab
      have e1 : i + 1 + a = i + (a + 1) := by omega
      have e2 : i + 1 + b = i + (b + 1) := by omega
      rw [e1, e2]
      exact hd (a + 1) (b + 1) (by simp only [List.length_cons]; omega)
        (by simp only [List.length_cons]; omega) (by omega)
    have ih := addIndexedIntSliceAux_eq key rest (i + 1)
      (q ++ [(genIndexKey key i, [Int.repr v])]) hq2 hd2
    calc addIndexedIntSliceAux key i q (v :: rest)
        = addIndexedIntSliceAux key (i + 1) (q.set (genIndexKey key i) (Int.repr v)) rest := rfl
      _ = addIndexedIntSliceAux key (i + 1) (q ++ [(genIndexKey key i, [Int.repr v])]) rest := by
            rw [values_set_append q _ _ h0]
      _ = q ++ [(genIndexKey key i, [Int.repr v])]
            ++ (List.enumFrom (i + 1) rest).map (fun p => (genIndexKey key p.1, [Int.repr p.2])) := ih
      _ = q ++ (List.enumFrom i (v :: rest)).map (fun p => (genIndexKey key p.1, [Int.repr p.2])) := by
            simp [List.enumFrom]

/-- A raw-dispatch error propagates unchanged through the decode stage. -/
theorem doRequest_error_of_raw_error {α : Type} (target : Target α) (c : Client)
    (t : Transport) (method p : String) (q : Option Values) (b : Option BodyValue)
    (e : ReqError) (h : doRequestRaw c t method p q b = .error e) :
    doRequest c t method p q b target = .error e := by
  show decodeStage target (doRequestRaw c t method p q b) = .error e
  rw [h]
  cases target <;> rfl

/-- With a constant transport and a marshallable body, `doRequestRaw`
reduces to status classification of the returned response. -/
theorem doRequestRaw_const_resp (c : Client) (method p : String)
    (q : Option Values) (bodyJ : Option Json) (resp : HttpResponse) :
    doRequestRaw c (fun _ => .ok resp) method p q (bodyJ.map BodyValue.json)
      = classifyResponse resp := by
  cases bodyJ <;> rfl

/-! ## Claim theorems -/

/-- Claim C1 (code bug): the Go `json.Unmarshal` ignores unknown object keys,
so the direct unmarshal in `decodeUTMPreset` "succeeds" on
`\x7b"data": ...\x7d` and `\x7b"foo":1\x7d`, returning a zero-valued
preset; the wrapped path is never taken for a single preset and no decode
error is produced.  The bare shape decodes directly as specified, and the
list decoder does take the wrapped path for `\x7b"data":[...]\x7d`. -/
theorem decodeUTMPreset_envelope_behavior :
    decodeUTMPreset (.obj [("id", .num 1), ("name", .str "x")])
      = .ok { utmPresetZero with id := 1, name := "x" }
    ∧ decodeUTMPreset (.obj [("data", .obj [("id", .num 1), ("name", .str "x")])])
      = .ok utmPresetZero
    ∧ decodeUTMPreset (.obj [("foo", .num 1)]) = .ok utmPresetZero
    ∧ decodeUTMPresetList (.obj [("foo", .num 1)]) = .ok []
    ∧ decodeUTMPresetList (.obj [("data", .arr [.obj [("id", .num 1), ("name", .str "x")]])])
      = .ok [{ utmPresetZero with id := 1, name := "x" }] :=
  ⟨rfl, rfl, rfl, rfl, rfl⟩

/-- Claim C2 (confirmed): for any response, `doRequestRaw` fails with an
`APIError` carrying exactly the status code of the response and its verbatim body
when the status is outside 200-299, and returns the raw body on 2xx;
`doRequest` propagates the `APIError` unchanged. -/
theorem doRequestRaw_apiError_round_trip :
    ∀ (c : Client) (method p : String) (query : Option Values)
      (bodyJ : Option Json) (resp : HttpResponse),
      (doRequestRaw c (fun _ => .ok resp) method p query (bodyJ.map BodyValue.json)
        = if resp.statusCode < 200 ∨ 300 ≤ resp.statusCode
            then .error (.apiError resp.statusCode resp.body)
            else .ok resp.body)
      ∧ (∀ (α : Type) (target : Target α),
          resp.statusCode < 200 ∨ 300 ≤ resp.statusCode →
          doRequest c (fun _ => .ok resp) method p query (bodyJ.map BodyValue.json)
              target
            = .error (.apiError resp.statusCode resp.body)) := by
  intro c method p query bodyJ resp
  constructor
  · rw [doRequestRaw_const_resp]
    rfl
  · intro α target h
    apply doRequest_error_of_raw_error
    rw [doRequestRaw_const_resp]
    unfold classifyResponse
    rw [if_pos h]

/-- Witness for C2 at a concrete 404 response. -/
theorem doRequestRaw_apiError_round_trip_witness :
    doRequest (newClient "k") (fun _ => .ok ⟨404, "nf"⟩) "GET" "/x" none none
        Target.noResult
      = .error (.apiError 404 "nf") :=
  (doRequestRaw_apiError_round_trip (newClient "k") "GET" "/x" none none
    ⟨404, "nf"⟩).2 Unit Target.noResult (by decide)

/-- Claim C3 (corrected): the loop assigns `key[i]` to the i-th value in
input order, but `url.Values.Encode` percent-encodes the brackets, so the
encoded query string reads `tag_ids%5B0%5D=5&tag_ids%5B1%5D=9` rather than
the literal `tag_ids[0]=5&tag_ids[1]=9` of the claim. -/
theorem addIndexedIntSlice_indexed_pairs :
    (∀ (key : String) (values : List Int),
      (∀ a, a < values.length → ∀ b, b < values.length → a ≠ b →
        genIndexKey key a ≠ genIndexKey key b) →
      addIndexedIntSlice Values.empty key values
        = (List.enumFrom 0 values).map (fun p => (genIndexKey key p.1, [Int.repr p.2])))
    ∧ Values.encode (addIndexedIntSlice Values.empty "tag_ids" [5, 9])
        = "tag_ids%5B0%5D=5&tag_ids%5B1%5D=9" := by
  constructor
  · intro key values hd
    have h := addIndexedIntSliceAux_eq key values 0 Values.empty
      (fun j _ => rfl)
      (fun a b ha hb hab => by simpa using hd a (by simpa using ha) b (by simpa using hb) hab)
    simpa [addIndexedIntSlice, Values.empty] using h
  · rfl

/-- Witness for the general part of C3 at `tag_ids` and `[5, 9]`. -/
theorem addIndexedIntSlice_indexed_pairs_witness :
    addIndexedIntSlice Values.empty "tag_ids" [5, 9]
      = [("tag_ids[0]", ["5"]), ("tag_ids[1]", ["9"])] :=
  (addIndexedIntSlice_indexed_pairs.1 "tag_ids" [5, 9] (by decide)).trans (by decide)

/-- Counterexample for C3 as stated: the request URL actually sent for a
listing filtered by tag ids `[5, 9]` (observed via an echoing transport)
carries the percent-encoded pairs and does not contain the substring
`tag_ids[0]=5&tag_ids[1]=9`. -/
theorem addIndexedIntSlice_escaping_cex :
    doRequestRaw (newClient "k") (fun req => .ok ⟨200, req.url⟩) "GET"
        "/api/v1/link/list" (some (listShortLinksQuery ⟨"", [5, 9], [], "", "", [], 0⟩)) none
      = .ok "https://api.t.ly/api/v1/link/list?tag_ids%5B0%5D=5&tag_ids%5B1%5D=9"
    ∧ strContains "https://api.t.ly/api/v1/link/list?tag_ids%5B0%5D=5&tag_ids%5B1%5D=9"
        "tag_ids[0]=5&tag_ids[1]=9" = false :=
  ⟨rfl, rfl⟩

/-- Claim C4 (confirmed): on a 2xx response whose body trims to empty, a
typed decode returns the zero value, for every unmarshal behaviour (hence
no decode is attempted and no decode error can arise). -/
theorem doRequest_empty_body_returns_zero :
    ∀ (c : Client) (method p : String) (query : Option Values)
      (bodyJ : Option Json) (st : Nat) (data : String) (α : Type) (zero : α)
      (u : String → Except String α),
      200 ≤ st → st < 300 → goTrimSpace data = "" →
      doRequest c (fun _ => .ok ⟨st, data⟩) method p query
          (bodyJ.map BodyValue.json) (.typed zero u)
        = .ok zero := by
  intro c method p query bodyJ st data α zero u h1 h2 hw
  show decodeStage _ (doRequestRaw _ _ _ _ _ _) = _
  rw [doRequestRaw_const_resp]
  have hc : classifyResponse ⟨st, data⟩ = .ok data := by
    unfold classifyResponse
    dsimp only
    rw [if_neg (by omega)]
  rw [hc]
  show (if goTrimSpace data = "" then Except.ok zero else _) = _
  rw [if_pos hw]

/-- Witness for C4 at a 204 response with a whitespace-only body and an
unmarshal function that always fails. -/
theorem doRequest_empty_body_returns_zero_witness :
    doRequest (newClient "k") (fun _ => .ok ⟨204, " \t\n "⟩) "DELETE" "/y" none none
        (.typed (7 : Int) (fun _ => .error "boom"))
      = .ok 7 :=
  doRequest_empty_body_returns_zero (newClient "k") "DELETE" "/y" none none 204
    " \t\n " Int 7 (fun _ => .error "boom") (by decide) (by decide) (by rfl)

/-- Claim C5 (confirmed): the serialized `ShortLinkCreateRequest` payload
carries a key exactly when the corresponding field is set (`long_url` and
`domain` always, each `omitempty` field only when present), and the
minimal create request serializes to a body with exactly `long_url` and
`domain`. -/
theorem optStrField_keys (k : String) (o : Option String) :
    (optStrField k o).map Prod.fst = if o.isSome then [k] else [] := by
  cases o <;> rfl

theorem optIntField_keys (k : String) (o : Option Int) :
    (optIntField k o).map Prod.fst = if o.isSome then [k] else [] := by
  cases o <;> rfl

theorem optBoolField_keys (k : String) (o : Option Bool) :
    (optBoolField k o).map Prod.fst = if o.isSome then [k] else [] := by
  cases o <;> rfl

theorem optJsonField_keys (k : String) (o : Option Json) :
    (optJsonField k o).map Prod.fst = if o.isSome then [k] else [] := by
  cases o <;> rfl

theorem intListField_keys (k : String) (vs : List Int) :
    (intListField k vs).map Prod.fst = if vs.isEmpty then [] else [k] := by
  cases vs <;> rfl

theorem createShortLink_field_presence :
    (∀ r : ShortLinkCreateRequest,
      jsonKeys (marshalShortLinkCreateRequest r)
        = ["long_url"] ++ (if r.shortID.isSome then ["short_id"] else [])
          ++ ["domain"]
          ++ (if r.expireAtDatetime.isSome then ["expire_at_datetime"] else [])
          ++ (if r.expireAtViews.isSome then ["expire_at_views"] else [])
          ++ (if r.description.isSome then ["description"] else [])
          ++ (if r.publicStats.isSome then ["public_stats"] else [])
          ++ (if r.password.isSome then ["password"] else [])
          ++ (if r.tags.isEmpty then [] else ["tags"])
          ++ (if r.pixels.isEmpty then [] else ["pixels"])
          ++ (if r.meta.isSome then ["meta"] else []))
    ∧ (∀ (lu dom : String) (c : Client) (t : Transport)
        (u : String → Except String ShortLink),
        createShortLink c t u ⟨lu, none, dom, none, none, none, none, none, [], [], none⟩
          = decodeStage (.typed shortLinkZero u) (finishRaw (t
              { method := "POST",
                url := trimRightSlashes c.baseURL ++ "/api/v1/link/shorten",
                headers := stdHeaders c.apiKey,
                body := renderJson (.obj [("long_url", .str lu), ("domain", .str dom)]) })))
    ∧ renderJson (marshalShortLinkCreateRequest
        ⟨"https://example.com", none, "t.ly", none, none, none, none, none, [], [], none⟩)
        = "\x7b\"long_url\":\"https://example.com\",\"domain\":\"t.ly\"\x7d" := by
  refine ⟨?_, fun lu dom c t u => rfl, rfl⟩
  intro r
  simp [marshalShortLinkCreateRequest, jsonKeys, optStrField_keys, optIntField_keys,
    optBoolField_keys, optJsonField_keys, intListField_keys]

/-- Claim C6 (confirmed): a body whose `json.Marshal` fails makes
`doRequestRaw` (and `doRequest`) return that marshalling error for every
transport, so the outcome is independent of the transport and no network
call is made. -/
theorem doRequestRaw_marshal_error_no_network :
    ∀ (c : Client) (method p : String) (query : Option Values) (msg : String),
      (∀ t : Transport,
        doRequestRaw c t method p query (some (.unserializable msg))
          = .error (.marshalError msg))
      ∧ (∀ (t : Transport) (α : Type) (target : Target α),
        doRequest c t method p query (some (.unserializable msg)) target
          = .error (.marshalError msg)) :=
  fun _ _ _ _ _ =>
    ⟨fun _ => rfl, fun t _ target =>
      doRequest_error_of_raw_error target _ t _ _ _ _ _ rfl⟩

/-- Claim C7 (confirmed): `DeleteShortLink` sends an HTTP DELETE to
`/api/v1/link` with no query and the JSON body
`\x7b"short_url": shortURL\x7d`, while the pixel, tag, and UTM-preset
deletes interpolate the numeric id into the path and send an empty body. -/
theorem deleteShortLink_body_based_delete :
    ∀ (c : Client) (t : Transport) (s : String),
      (deleteShortLink c t s
        = decodeStage .noResult (finishRaw (t
            { method := "DELETE",
              url := trimRightSlashes c.baseURL ++ "/api/v1/link",
              headers := stdHeaders c.apiKey,
              body := renderJson (.obj [("short_url", .str s)]) })))
      ∧ renderJson (.obj [("short_url", Json.str "https://t.ly/abc")])
          = "\x7b\"short_url\":\"https://t.ly/abc\"\x7d"
      ∧ (∀ id : Int, deletePixel c t id
          = decodeStage .noResult (finishRaw (t
              { method := "DELETE",
                url := trimRightSlashes c.baseURL ++ ("/api/v1/link/pixel/" ++ Int.repr id),
                headers := stdHeaders c.apiKey, body := "" })))
      ∧ (∀ id : Int, deleteTag c t id
          = decodeStage .noResult (finishRaw (t
              { method := "DELETE",
                url := trimRightSlashes c.baseURL ++ ("/api/v1/link/tag/" ++ Int.repr id),
                headers := stdHeaders c.apiKey, body := "" })))
      ∧ (∀ id : Int, deleteUTMPreset c t id
          = decodeStage .noResult (finishRaw (t
              { method := "DELETE",
                url := trimRightSlashes c.baseURL ++ ("/api/v1/link/utm-preset/" ++ Int.repr id),
                headers := stdHeaders c.apiKey, body := "" }))) :=
  fun _ _ _ => ⟨rfl, rfl, fun _ => rfl, fun _ => rfl, fun _ => rfl⟩

/-- Claim C8 (corrected): `GetQRCode` with `Format = "eps"` and no output
sends `short_url` and `format=eps` and nothing else, but `Encode` sorts
keys, so the query string reads `format=eps&short_url=...`, not
`short_url=...&format=eps`; a 2xx response body is returned unchanged. -/
theorem getQRCode_eps_request :
    ∀ (c : Client) (t : Transport) (s : String),
      (getQRCode c t ⟨s, "", "eps"⟩
        = finishRaw (t
            { method := "GET",
              url := trimRightSlashes c.baseURL ++ "/api/v1/link/qr-code" ++ "?"
                ++ Values.encode (Values.set (Values.set Values.empty "short_url" s)
                    "format" "eps"),
              headers := stdHeaders c.apiKey, body := "" }))
      ∧ (Values.encode (Values.set (Values.set Values.empty "short_url" s) "format" "eps")
          = "format=eps&short_url=" ++ queryEscape s)
      ∧ (∀ (st : Nat) (body : String), 200 ≤ st → st < 300 →
          getQRCode c (fun _ => .ok ⟨st, body⟩) ⟨s, "", "eps"⟩ = .ok body) := by
  intro c t s
  refine ⟨rfl, rfl, fun st body h1 h2 => ?_⟩
  show classifyResponse ⟨st, body⟩ = .ok body
  unfold classifyResponse
  dsimp only
  rw [if_neg (by omega)]

/-- Witness for C8 at a concrete request and a 200 response. -/
theorem getQRCode_eps_request_witness :
    getQRCode (newClient "k") (fun _ => .ok ⟨200, "IMG"⟩) ⟨"abc", "", "eps"⟩
      = .ok "IMG" :=
  (getQRCode_eps_request (newClient "k") (fun _ => .ok ⟨200, "IMG"⟩) "abc").2.2
    200 "IMG" (by decide) (by decide)

/-- Counterexample for C8 as stated: the URL actually sent (observed via an
echoing transport) carries `format=eps` before `short_url`, and the claimed
ordering `short_url=...&format=eps` does not occur in it. -/
theorem getQRCode_query_order_cex :
    getQRCode (newClient "k") (fun req => .ok ⟨200, req.url⟩) ⟨"abc", "", "eps"⟩
      = .ok "https://api.t.ly/api/v1/link/qr-code?format=eps&short_url=abc"
    ∧ strContains "https://api.t.ly/api/v1/link/qr-code?format=eps&short_url=abc"
        "short_url=abc&format=eps" = false :=
  ⟨rfl, rfl⟩

/-- The function `buildURL` with a non-empty query appends `?` and the encoded query. -/
theorem buildURL_cons (c : Client) (p : String) (a : String × List String)
    (as : Values) :
    buildURL c p (some (a :: as))
      = trimRightSlashes c.baseURL ++ p ++ "?" ++ Values.encode (a :: as) := by
  show (if 0 < (a :: as).length
      then trimRightSlashes c.baseURL ++ p ++ "?" ++ Values.encode (a :: as)
      else trimRightSlashes c.baseURL ++ p)
    = trimRightSlashes c.baseURL ++ p ++ "?" ++ Values.encode (a :: as)
  rw [if_pos (by simp)]

/-- Claim C9 (corrected): the request URL is the base URL with trailing
slashes trimmed, plus the path; `?` and the percent-encoded query are
appended only when at least one parameter is present, and with an absent
or empty query the URL is exactly the trimmed base plus path. -/
theorem requestURL_construction :
    ∀ (c : Client) (method p : String) (bodyJ : Option Json) (t : Transport),
      (doRequestRaw c t method p none (bodyJ.map BodyValue.json)
        = finishRaw (t
            { method := method, url := trimRightSlashes c.baseURL ++ p,
              headers := stdHeaders c.apiKey,
              body := (bodyJ.map renderJson).getD "" }))
      ∧ (doRequestRaw c t method p (some Values.empty) (bodyJ.map BodyValue.json)
        = finishRaw (t
            { method := method, url := trimRightSlashes c.baseURL ++ p,
              headers := stdHeaders c.apiKey,
              body := (bodyJ.map renderJson).getD "" }))
      ∧ (∀ q : Values, q ≠ [] →
          doRequestRaw c t method p (some q) (bodyJ.map BodyValue.json)
            = finishRaw (t
                { method := method,
                  url := trimRightSlashes c.baseURL ++ p ++ "?" ++ Values.encode q,
                  headers := stdHeaders c.apiKey,
                  body := (bodyJ.map renderJson).getD "" })) := by
  intro c method p bodyJ t
  refine ⟨?_, ?_, fun q hq => ?_⟩
  · cases bodyJ <;> rfl
  · cases bodyJ <;> rfl
  · cases q with
    | nil => exact absurd rfl hq
    | cons a as =>
      cases bodyJ with
      | none =>
        show finishRaw (t (buildRequest c method p (some (a :: as)) "")) = _
        unfold buildRequest
        rw [buildURL_cons]
        rfl
      | some j =>
        show finishRaw (t (buildRequest c method p (some (a :: as)) (renderJson j))) = _
        unfold buildRequest
        rw [buildURL_cons]
        rfl

/-- Witness for the non-empty-query part of C9 at a one-parameter query. -/
theorem requestURL_construction_witness :
    doRequestRaw (newClient "k") (fun req => .ok ⟨200, req.url⟩) "GET" "/api/v1/link"
        (some [("short_url", ["abc"])]) none
      = .ok "https://api.t.ly/api/v1/link?short_url=abc" :=
  ((requestURL_construction (newClient "k") "GET" "/api/v1/link" none
      (fun req => .ok ⟨200, req.url⟩)).2.2 [("short_url", ["abc"])]
    (by decide)).trans (by rfl)

/-- Counterexample for C9 as stated: with a base URL ending in a slash the
code trims the slash, so the sent URL differs from `base_url + path`. -/
theorem requestURL_trailing_slash_cex :
    doRequestRaw { apiKey := "k", baseURL := "https://api.t.ly/" }
        (fun req => .ok ⟨200, req.url⟩) "GET" "/api/v1/link" none none
      = .ok "https://api.t.ly/api/v1/link"
    ∧ ("https://api.t.ly/" ++ "/api/v1/link" : String) = "https://api.t.ly//api/v1/link"
    ∧ ("https://api.t.ly/api/v1/link" : String) ≠ "https://api.t.ly//api/v1/link" :=
  ⟨rfl, rfl, by decide⟩

/-- Claim C10 (confirmed): `GetStats` delegates to `GetStatsWithRange` with
only the short URL set, and with empty dates the built query contains
exactly the `short_url` parameter; both calls are extensionally equal for
every transport and unmarshal behaviour. -/
theorem getStats_refines_getStatsWithRange :
    ∀ (c : Client) (t : Transport) (u : String → Except String Stats) (s : String),
      getStats c t u s = getStatsWithRange c t u ⟨s, "", ""⟩
      ∧ getStatsWithRange c t u ⟨s, "", ""⟩
          = doRequest c t "GET" "/api/v1/link/stats" (some [("short_url", [s])]) none
              (.typed statsZero u) :=
  fun _ _ _ _ => ⟨rfl, rfl⟩
